import Mathlib

/-!
Shallow embedding of `src/main.py`, a pandas batch pipeline that merges a
Users table with a Recordings table, keeps each user's first recording,
flattens the nested `Recording_Summary` mapping into scalar columns,
computes two derived columns, suppresses outlier metric values and checks
integrity invariants before persisting.

Modelling conventions, chosen once and used throughout:
* A dataframe is a `List` of row structures, in row order.  Row positions
  (the pandas integer index created by `read_csv`) are made explicit with
  `List.enum` where the source relies on them (`rank(method='first')`,
  `merge(..., left_index=True, right_index=True)`).
* A nullable cell is an `Option`; `none` is pandas `NaN`/`NaT`.
* Timestamp text is modelled as `Option Int`: the source ranks the raw
  `Date_Time` strings lexicographically and later coerces them with
  `astype('datetime64[ns]')`; uniformly formatted timestamp text is order
  isomorphic to its chronology, so one linearly ordered carrier stands for
  both the textual and the coerced form and the `astype` calls on already
  canonical values are the identity.
* Summary values are modelled as `Int`: every claim under study concerns
  the key structure of the mapping and ordered comparisons against integer
  thresholds, for which a single ordered scalar carrier suffices.
* A Python runtime exception is `Except.error` carrying the message text;
  code that cannot raise returns plainly.
-/

/-- A value held by the `Recording_Summary` cell before the conversion on
line 105 of `src/main.py`: from `read_csv` the cell is either a string,
a missing value (`NaN`), or — in principle — an already structured
mapping. -/
inductive PyVal where
  | vNull : PyVal
  | vStr (s : String) : PyVal
  | vDict (d : List (String × Int)) : PyVal
deriving DecidableEq

/-- A parsed recording summary: a key to value mapping (a Python dict),
modelled as an association list in insertion order. -/
abbrev Summary := List (String × Int)

/-- The opening brace character. -/
def lbrace : Char := Char.ofNat 123

/-- The closing brace character. -/
def rbrace : Char := Char.ofNat 125

/-- Drop leading spaces. -/
def skip_spaces : List Char → List Char
  | c :: cs => if c = ' ' then skip_spaces cs else c :: cs
  | [] => []

/-- Split a leading run of decimal digits from the rest. -/
def take_digits : List Char → List Char × List Char
  | c :: cs =>
    if c.isDigit then
      let p := take_digits cs
      (c :: p.1, p.2)
    else ([], c :: cs)
  | [] => ([], [])

/-- Decimal digits to a natural number. -/
def digits_to_nat (ds : List Char) : Nat :=
  ds.foldl (fun n c => 10 * n + (c.toNat - 48)) 0

/-- Parse an optionally signed integer literal, returning it with the
unconsumed rest. -/
def parse_int : List Char → Option (Int × List Char)
  | c :: cs =>
    if c = '-' then
      match take_digits cs with
      | ([], _) => none
      | (ds, r) => some (-(Int.ofNat (digits_to_nat ds)), r)
    else
      match take_digits (c :: cs) with
      | ([], _) => none
      | (ds, r) => some (Int.ofNat (digits_to_nat ds), r)
  | [] => none

/-- Consume characters up to a closing double quote; `none` when the quote
never comes. -/
def take_until_quote : List Char → Option (List Char × List Char)
  | [] => none
  | c :: cs =>
    if c = '"' then some ([], cs)
    else
      match take_until_quote cs with
      | some (ks, r) => some (c :: ks, r)
      | none => none

/-- Parse one double quoted key. -/
def parse_key (cs : List Char) : Option (String × List Char) :=
  match cs with
  | c :: cs1 =>
    if c = '"' then
      match take_until_quote cs1 with
      | some (ks, r) => some (String.mk ks, r)
      | none => none
    else none
  | [] => none

/-- Parse a nonempty comma separated run of `"key": int` entries followed
by the closing brace; fuelled to make termination structural. -/
def parse_entries : Nat → List Char → Option (Summary × List Char)
  | 0, _ => none
  | Nat.succ f, cs =>
    match parse_key (skip_spaces cs) with
    | none => none
    | some (k, cs1) =>
      match skip_spaces cs1 with
      | c :: cs2 =>
        if c = ':' then
          match parse_int (skip_spaces cs2) with
          | none => none
          | some (v, cs3) =>
            match skip_spaces cs3 with
            | c2 :: cs4 =>
              if c2 = ',' then
                match parse_entries f cs4 with
                | some (rest, r) => some ((k, v) :: rest, r)
                | none => none
              else if c2 = rbrace then some ([(k, v)], cs4)
              else none
            | [] => none
        else none
      | [] => none

/-- Models Python `ast.literal_eval` restricted to the shape the pipeline
feeds it: a dict literal with (double) quoted string keys and integer
values, for example the text rendered here with escaped braces:
`"\x7b\x22calories\x22: 100\x7d"`.  Anything else — in particular the
empty string, on which `ast.literal_eval` raises `SyntaxError` — yields
`none`, standing for the exception `ast.literal_eval` raises on input it
cannot parse. -/
def literal_eval (s : String) : Option Summary :=
  match skip_spaces s.toList with
  | c :: cs1 =>
    if c = lbrace then
      match skip_spaces cs1 with
      | c2 :: cs2 =>
        if c2 = rbrace then
          if (skip_spaces cs2).isEmpty then some [] else none
        else
          match parse_entries (cs1.length + 1) (c2 :: cs2) with
          | some (d, r) => if (skip_spaces r).isEmpty then some d else none
          | none => none
      | [] => none
    else none
  | [] => none

/-- Line 105 of `src/main.py`:
`df['Recording_Summary'].apply(lambda x: ast.literal_eval(x) if type(x) == str else \x7b\x7d)`.
A string cell is handed to `ast.literal_eval`, whose parse failure
propagates as an exception; every other cell — missing value or already
structured mapping alike — is replaced by the empty dict. -/
def parse_recording_summary (x : PyVal) : Except String Summary :=
  match x with
  | PyVal.vStr s =>
    match literal_eval s with
    | some d => Except.ok d
    | none => Except.error ("malformed node or string: " ++ s)
  | _ => Except.ok []

/-- A row of the Users source (`users_*.tsv`). -/
structure UserRecord where
  pseudo_User_ID : Option String
  signup_date : Option Int
  start_date : Option Int
deriving DecidableEq

/-- A row of the Recordings source (`recordings_*.tsv`). -/
structure RecordingRecord where
  recording_ID : Option String
  pseudo_User_ID : Option String
  date_Time : Option Int
  activity_Type : Option String
  recording_Summary : PyVal
deriving DecidableEq

/-- A row of `merge_dataframes`' output: the left join of Users with
Recordings on `Pseudo_User_ID`, projected to the seven columns of
interest. -/
structure MergedRow where
  pseudo_User_ID : Option String
  signup_date : Option Int
  start_date : Option Int
  recording_ID : Option String
  date_Time : Option Int
  activity_Type : Option String
  recording_Summary : PyVal
deriving DecidableEq

/-- `merge_dataframes` (lines 26 to 44): a left outer join keyed on
`Pseudo_User_ID` — every user row appears once per matching recording, in
recordings order, or once with nulls in all recording columns when no
recording matches — followed by the projection to the columns of
interest.  (Null join keys do not occur in the modelled sources.) -/
def merge_dataframes (users : List UserRecord) (recordings : List RecordingRecord) :
    List MergedRow :=
  users.flatMap (fun u =>
    let hits := recordings.filter (fun r => r.pseudo_User_ID == u.pseudo_User_ID)
    if hits.isEmpty then
      [⟨u.pseudo_User_ID, u.signup_date, u.start_date, none, none, none, PyVal.vNull⟩]
    else
      hits.map (fun r =>
        ⟨u.pseudo_User_ID, u.signup_date, u.start_date, r.recording_ID, r.date_Time,
          r.activity_Type, r.recording_Summary⟩))

/-- Whether the enumerated row `p` counts toward the rank of the
enumerated row `q` under
`groupby('Pseudo_User_ID')['Date_Time'].rank(method='first', ascending=True)`:
same group, both values present, and `p` strictly earlier in the
(value, original position) lexicographic order. -/
def counts_before (p q : Nat × MergedRow) : Bool :=
  p.2.pseudo_User_ID == q.2.pseudo_User_ID &&
    match p.2.date_Time, q.2.date_Time with
    | some a, some b => a < b || (a == b && decide (p.1 < q.1))
    | _, _ => false

/-- Line 88 of `src/main.py`: the `RowNumber` of the enumerated row `q`
in the enumerated frame `l`.  `groupby` drops rows whose group key is
missing, and `rank` leaves missing values unranked, so both give `none`;
otherwise the rank is one more than the number of rows counting before
`q`. -/
def row_number (l : List (Nat × MergedRow)) (q : Nat × MergedRow) : Option Nat :=
  match q.2.pseudo_User_ID, q.2.date_Time with
  | some _, some _ => some ((l.filter (fun p => counts_before p q)).length + 1)
  | _, _ => none

/-- Lines 88 and 89 of `src/main.py`: keep exactly the rows whose
`RowNumber` equals 1 and drop the helper column. -/
def clean_select (df : List MergedRow) : List MergedRow :=
  ((df.enum.filter (fun q => row_number df.enum q == some 1)).map (fun q => q.2))

/-- A row after `clean_dataframe`: first records selected, columns
renamed (lines 91 to 98), timestamp columns coerced (lines 100 to 102,
the identity on the canonical carrier) and the summary cell parsed into
a dict (line 105). -/
structure CleanedRow where
  pseudoUserID : Option String
  accountSignUpDateTime : Option Int
  proSubscriptionSignUpDateTime : Option Int
  firstRecordingID : Option String
  firstRecordingDateTime : Option Int
  firstRecordingActivityType : Option String
  recording_Summary : Summary
deriving DecidableEq

/-- Parse the summary cells of the selected rows one by one, stopping at
the first `ast.literal_eval` failure, as the elementwise `apply` on
line 105 does. -/
def parse_summaries : List MergedRow → Except String (List CleanedRow)
  | [] => Except.ok []
  | r :: rs =>
    match parse_recording_summary r.recording_Summary with
    | Except.error e => Except.error e
    | Except.ok d =>
      match parse_summaries rs with
      | Except.error e => Except.error e
      | Except.ok tail =>
        Except.ok (⟨r.pseudo_User_ID, r.signup_date, r.start_date, r.recording_ID,
          r.date_Time, r.activity_Type, d⟩ :: tail)

/-- `clean_dataframe` (lines 78 to 108): first-record selection, renames,
timestamp coercion and the summary parse. -/
def clean_dataframe (df : List MergedRow) : Except String (List CleanedRow) :=
  parse_summaries (clean_select df)

/-- The fixed rename table of `unpack_recording_summary`
(lines 61 to 73), mapping the ten recognized summary keys to their output
column names. -/
def summary_renames : List (String × String) :=
  [("calories", "FirstRecordingCaloriesBurned"),
   ("duration", "FirstRecordingDuration"),
   ("timeTotal", "FirstRecordingTotalTime"),
   ("updatedAt", "FirstRecordingUpdatedDateTime"),
   ("timeMoving", "FirstRecordingMovingTime"),
   ("paceAverage", "FirstRecordingAveragePace"),
   ("speedAverage", "FirstRecordingAverageSpeed"),
   ("distanceTotal", "FirstRecordingTotalDistance"),
   ("elevationGain", "FirstRecordingElevationGain"),
   ("elevationLoss", "FirstRecordingElevationLoss")]

/-- `DataFrame.rename` on one column label: renamed when listed, kept
verbatim otherwise. -/
def rename_col (c : String) : String :=
  (List.lookup c summary_renames).getD c

/-- The union, in first seen order, of the keys of the non-empty summary
dicts: the columns `apply(lambda x: pd.Series(x))` produces on line 57. -/
def all_keys (df : List CleanedRow) : List String :=
  (df.filter (fun r => r.recording_Summary ≠ [])).foldl
    (fun acc r =>
      acc ++ (r.recording_Summary.map Prod.fst).filter (fun k => !acc.contains k))
    []

/-- A row after `unpack_recording_summary`: the six scalar columns plus
one column per summary key seen anywhere in the frame, under its renamed
label, holding this row's value for the key (null when the row's dict
lacks it, as the index aligned left merge on line 59 yields). -/
structure UnpackedRow where
  pseudoUserID : Option String
  accountSignUpDateTime : Option Int
  proSubscriptionSignUpDateTime : Option Int
  firstRecordingID : Option String
  firstRecordingDateTime : Option Int
  firstRecordingActivityType : Option String
  extra : List (String × Option Int)
deriving DecidableEq

/-- Expand one row against the frame wide key set `ks`. -/
def unpack_row (ks : List String) (r : CleanedRow) : UnpackedRow :=
  ⟨r.pseudoUserID, r.accountSignUpDateTime, r.proSubscriptionSignUpDateTime,
    r.firstRecordingID, r.firstRecordingDateTime, r.firstRecordingActivityType,
    ks.map (fun k => (rename_col k, List.lookup k r.recording_Summary))⟩

/-- `unpack_recording_summary` (lines 47 to 75): expand the summary dicts
into per key columns, left merge them back by row index, drop the
original `Recording_Summary` column and apply the rename table. -/
def unpack_recording_summary (df : List CleanedRow) : List UnpackedRow :=
  df.map (unpack_row (all_keys df))

/-- Line 120 of `src/main.py`:
`1 if x['AccountSignUpDateTime'] > x['FirstRecordingDateTime'] else 0`.
A comparison against `NaT` is false in pandas, so a missing timestamp on
either side yields 0. -/
def invalid_flag (signup rec : Option Int) : Int :=
  match signup, rec with
  | some s, some t => if t < s then 1 else 0
  | _, _ => 0

/-- Lines 121 to 123 of `src/main.py`: the elapsed seconds divided by
3600 and cast with `astype(int)`, which truncates toward zero
(`Int.tdiv`). -/
def duration_hours (signup rec : Int) : Int :=
  Int.tdiv (rec - signup) 3600

/-- A row of the final frame: the unpacked columns plus the two derived
columns of `compute_calculated_columns`. -/
structure FinalRow where
  pseudoUserID : Option String
  accountSignUpDateTime : Option Int
  proSubscriptionSignUpDateTime : Option Int
  firstRecordingID : Option String
  firstRecordingDateTime : Option Int
  firstRecordingActivityType : Option String
  extra : List (String × Option Int)
  invalidFirstRecordingDateFlag : Int
  firstRecordingDurationInHours : Int
deriving DecidableEq

/-- One row of `compute_calculated_columns`: the flag never fails, but
`astype(int)` on line 123 raises when the elapsed time is `NaN`, that is
when either timestamp is missing. -/
def compute_row (r : UnpackedRow) : Except String FinalRow :=
  match r.accountSignUpDateTime, r.firstRecordingDateTime with
  | some s, some t =>
    Except.ok ⟨r.pseudoUserID, r.accountSignUpDateTime, r.proSubscriptionSignUpDateTime,
      r.firstRecordingID, r.firstRecordingDateTime, r.firstRecordingActivityType,
      r.extra, invalid_flag (some s) (some t), duration_hours s t⟩
  | _, _ => Except.error "Cannot convert non-finite values (NA or inf) to integer"

/-- `compute_calculated_columns` (lines 111 to 126) over the whole
frame. -/
def compute_calculated_columns : List UnpackedRow → Except String (List FinalRow)
  | [] => Except.ok []
  | r :: rs =>
    match compute_row r with
    | Except.error e => Except.error e
    | Except.ok fr =>
      match compute_calculated_columns rs with
      | Except.error e => Except.error e
      | Except.ok tail => Except.ok (fr :: tail)

/-- An outlier suppression rule of `validate_df` (lines 138 to 154). -/
structure OutlierRule where
  activity_type : String
  metric : String
  max_value : Int
deriving DecidableEq

/-- The configured rule list (lines 138 to 154). -/
def outlier_rules : List OutlierRule :=
  [⟨"Hiking", "FirstRecordingTotalTime", 64800⟩,
   ⟨"Backpacking", "FirstRecordingTotalTime", 864000⟩,
   ⟨"Hiking", "FirstRecordingAverageSpeed", 6⟩]

/-- Read a metric column of a row; the metric columns come from the
summary expansion and live in `extra`.  A label the row does not carry
reads as a missing value. -/
def get_metric (r : FinalRow) (m : String) : Option Int :=
  match List.lookup m r.extra with
  | some v => v
  | none => none

/-- Null out a metric column of a row (`df.loc[rows_impacted, metric] = np.nan`). -/
def set_metric (r : FinalRow) (m : String) : FinalRow :=
  { r with extra := r.extra.map (fun kv => if kv.1 = m then (kv.1, none) else kv) }

/-- `NaN > max_value` is false in pandas, so only a present value can
exceed the threshold. -/
def opt_gt (v : Option Int) (m : Int) : Bool :=
  match v with
  | some x => decide (m < x)
  | none => false

/-- Line 161 of `src/main.py`: the mask
`(df['FirstRecordingActivityType'] == activity_type) & (df[metric] > max_value)`
at one row. -/
def rule_fires (rule : OutlierRule) (r : FinalRow) : Bool :=
  (r.firstRecordingActivityType == some rule.activity_type) &&
    opt_gt (get_metric r rule.metric) rule.max_value

/-- Lines 161 and 162 of `src/main.py`: null the metric on the rows the
mask selects, leave the others untouched. -/
def apply_rule (rule : OutlierRule) (r : FinalRow) : FinalRow :=
  if rule_fires rule r then set_metric r rule.metric else r

/-- One row's journey through the rule loop. -/
def apply_rules_row (rules : List OutlierRule) (r : FinalRow) : FinalRow :=
  rules.foldl (fun acc rule => apply_rule rule acc) r

/-- The `for rule in outlier_rules:` loop of `validate_df`
(lines 156 to 162), frame wide. -/
def suppress_outliers (df : List FinalRow) : List FinalRow :=
  outlier_rules.foldl (fun d rule => d.map (apply_rule rule)) df

/-- `Series.is_unique`, which pandas computes as
`nunique(dropna=False) == len(self)`: missing values count as one shared
value, so two of them already defeat uniqueness. -/
def series_is_unique (xs : List (Option String)) : Bool :=
  xs.dedup.length == xs.length

/-- `validate_df` (lines 129 to 171): apply the outlier rules, then the
three integrity checks in order.  Each failing check executes
`raise exception(...)`; the message texts are the source's, including the
copied `PseudoUserID` text on the `FirstRecordingID` check (line 167). -/
def validate_df (df : List FinalRow) : Except String (List FinalRow) :=
  let d := suppress_outliers df
  if !series_is_unique (d.map (fun r => r.pseudoUserID)) then
    Except.error "PseudoUserID is not unique."
  else if !series_is_unique (d.map (fun r => r.firstRecordingID)) then
    Except.error "PseudoUserID is not unique."
  else if (d.map (fun r => r.pseudoUserID)).any (fun x => x == none) then
    Except.error "One or more record does not have a PseudoUserID."
  else Except.ok d

/-- The `__main__` block (lines 187 to 204): the stages in order, the
persister receiving — and the pipeline yielding — only a table the
validator accepted; any raised error aborts the run with nothing
persisted. -/
def run_pipeline (users : List UserRecord) (recordings : List RecordingRecord) :
    Except String (List FinalRow) := do
  let merged := merge_dataframes users recordings
  let cleaned ← clean_dataframe merged
  let unpacked := unpack_recording_summary cleaned
  let final ← compute_calculated_columns unpacked
  let validated ← validate_df final
  pure validated

/-! ## Helper lemmas -/

/-- A list whose deduplication loses no length is duplicate free, and
conversely; this is `Series.is_unique`. -/
theorem series_is_unique_iff (xs : List (Option String)) :
    series_is_unique xs = true ↔ xs.Nodup := by
  unfold series_is_unique
  rw [beq_iff_eq]
  constructor
  · intro h
    rw [← List.dedup_eq_self]
    exact (List.dedup_sublist xs).eq_of_length h
  · intro h
    rw [List.dedup_eq_self.mpr h]

/-! ## Claim C1 -/

/-- Claim C1 (code evaluation at the failing input): a user present in
the Users source with no recordings does not survive to the final table.
The left join gives the user one row with a missing `Date_Time`;
`rank(method='first')` leaves the missing value unranked, so the
`RowNumber == 1` filter on line 89 drops the row and the pipeline
persists an empty table instead of one row for the user. -/
theorem user_without_recordings_dropped :
    run_pipeline [⟨some "u1", some 0, none⟩] [] = Except.ok [] := rfl

/-! ## Claim C3 -/

/-- Claim C3 (counterexample): the parse on line 105 does not pass an
already structured mapping through unchanged — any non-string cell,
a non-empty dict included, is replaced by the empty dict — and an
unparseable string is not replaced by an empty mapping but raises,
halting the run (here the empty string, on which `ast.literal_eval`
raises `SyntaxError`). -/
theorem summary_parse_not_passthrough :
    parse_recording_summary (PyVal.vDict [("calories", 5)]) = Except.ok [] ∧
    ([("calories", 5)] : Summary) ≠ [] ∧
    parse_recording_summary (PyVal.vStr "") =
      Except.error "malformed node or string: " := by
  exact ⟨rfl, by decide, rfl⟩

/-- Claim C3 (amended): parsing the recording-summary field never halts
the run on a non-string cell — null and already structured mappings alike
become the empty dict — while a string cell is handed to the literal
parser, whose result is returned on success and whose failure on an
unparseable string (the empty string included) propagates as an error
instead of being replaced by an empty mapping. -/
theorem summary_parse_characterization :
    (∀ x : PyVal, (∀ s, x ≠ PyVal.vStr s) → parse_recording_summary x = Except.ok []) ∧
    (∀ s d, literal_eval s = some d → parse_recording_summary (PyVal.vStr s) = Except.ok d) ∧
    (∀ s, literal_eval s = none →
      ∀ d, parse_recording_summary (PyVal.vStr s) ≠ Except.ok d) := by
  refine ⟨?_, ?_, ?_⟩
  · intro x hx
    cases x with
    | vNull => rfl
    | vStr s => exact absurd rfl (hx s)
    | vDict d => rfl
  · intro s d h
    simp [parse_recording_summary, h]
  · intro s h d
    simp [parse_recording_summary, h]

/-- Claim C3 (witness): the characterization applied at a missing cell. -/
theorem summary_parse_characterization_witness :
    parse_recording_summary PyVal.vNull = Except.ok [] :=
  summary_parse_characterization.1 PyVal.vNull (fun _ h => PyVal.noConfusion h)

/-! ## Claim C5 -/

/-- Claim C5: the flag is 1 exactly when both timestamps are present and
the signup time is strictly later than the first-recording time; a
missing timestamp on either side yields 0; and every row of the computed
frame carries the flag of its own two timestamp columns. -/
theorem invalid_flag_iff :
    (∀ s t : Option Int, invalid_flag s t = 1 ↔
      ∃ a b : Int, s = some a ∧ t = some b ∧ b < a) ∧
    (∀ s t : Option Int, s = none ∨ t = none → invalid_flag s t = 0) ∧
    (∀ df out, compute_calculated_columns df = Except.ok out →
      ∀ r ∈ out, r.invalidFirstRecordingDateFlag =
        invalid_flag r.accountSignUpDateTime r.firstRecordingDateTime) := by
  refine ⟨?_, ?_, ?_⟩
  · intro s t
    cases s with
    | none => simp [invalid_flag]
    | some a =>
      cases t with
      | none => simp [invalid_flag]
      | some b =>
        by_cases h : b < a <;> simp [invalid_flag, h]
  · intro s t h
    rcases h with h | h
    · subst h; cases t <;> rfl
    · subst h; cases s <;> rfl
  · intro df
    induction df with
    | nil =>
      intro out h r hr
      cases h
      simp at hr
    | cons r0 rs ih =>
      intro out h r hr
      unfold compute_calculated_columns at h
      cases hc : compute_row r0 with
      | error e => rw [hc] at h; cases h
      | ok fr =>
        rw [hc] at h
        cases ht : compute_calculated_columns rs with
        | error e => rw [ht] at h; cases h
        | ok tail =>
          rw [ht] at h
          cases h
          rcases List.mem_cons.mp hr with h1 | h1
          · subst h1
            unfold compute_row at hc
            cases hs : r0.accountSignUpDateTime with
            | none => rw [hs] at hc; cases hc
            | some s =>
              cases htt : r0.firstRecordingDateTime with
              | none => rw [hs, htt] at hc; cases hc
              | some t =>
                rw [hs, htt] at hc
                cases hc
                rfl
          · exact ih tail ht r h1

/-! ## Claim C6 -/

/-- Truncation toward zero makes the quotient negative exactly when the
dividend reaches one full negative hour. -/
theorem tdiv_3600_neg_iff (x : Int) : Int.tdiv x 3600 < 0 ↔ x ≤ -3600 := by
  cases x with
  | ofNat n =>
    simp only [Int.tdiv, Int.ofNat_eq_natCast]
    omega
  | negSucc n =>
    simp only [Int.tdiv, Int.ofNat_eq_natCast, Int.negSucc_eq]
    omega

/-- Claim C6 (counterexample): with signup one second after the first
recording the invalid-date flag is 1 yet the truncated hour count is 0,
not negative — so the duration is not negative exactly when the flag
is 1. -/
theorem duration_zero_with_flag_one :
    invalid_flag (some 1) (some 0) = 1 ∧ duration_hours 1 0 = 0 ∧
    ¬ duration_hours 1 0 < 0 := by
  refine ⟨rfl, rfl, by decide⟩

/-- Claim C6 (amended): the duration is the elapsed seconds divided by
3600 truncated toward zero — 3599 seconds give 0 and 7200 give 2 —, it is
negative only if the invalid-date flag is 1 (namely exactly when the
recording precedes signup by at least 3600 seconds, so a flagged row with
a smaller gap shows 0), and every computed row carries the duration of
its own two timestamp columns. -/
theorem duration_hours_characterization :
    duration_hours 0 3599 = 0 ∧ duration_hours 0 7200 = 2 ∧
    (∀ s t : Int, duration_hours s t < 0 ↔ t - s ≤ -3600) ∧
    (∀ s t : Int, duration_hours s t < 0 → invalid_flag (some s) (some t) = 1) ∧
    (∀ df out, compute_calculated_columns df = Except.ok out →
      ∀ r ∈ out, ∃ a b : Int, r.accountSignUpDateTime = some a ∧
        r.firstRecordingDateTime = some b ∧
        r.firstRecordingDurationInHours = duration_hours a b) := by
  refine ⟨by decide, by decide, ?_, ?_, ?_⟩
  · intro s t
    exact tdiv_3600_neg_iff (t - s)
  · intro s t h
    unfold duration_hours at h
    rw [tdiv_3600_neg_iff (t - s)] at h
    simp only [invalid_flag, if_pos (by omega : t < s)]
  · intro df
    induction df with
    | nil =>
      intro out h r hr
      cases h
      simp at hr
    | cons r0 rs ih =>
      intro out h r hr
      unfold compute_calculated_columns at h
      cases hc : compute_row r0 with
      | error e => rw [hc] at h; cases h
      | ok fr =>
        rw [hc] at h
        cases ht : compute_calculated_columns rs with
        | error e => rw [ht] at h; cases h
        | ok tail =>
          rw [ht] at h
          cases h
          rcases List.mem_cons.mp hr with h1 | h1
          · subst h1
            unfold compute_row at hc
            cases hs : r0.accountSignUpDateTime with
            | none => rw [hs] at hc; cases hc
            | some a =>
              cases htt : r0.firstRecordingDateTime with
              | none => rw [hs, htt] at hc; cases hc
              | some b =>
                rw [hs, htt] at hc
                cases hc
                exact ⟨a, b, rfl, rfl, rfl⟩
          · exact ih tail ht r h1

/-- Claim C6 (witness): the characterization applied at a gap of one full
negative hour — recording 3600 seconds before signup — where the duration
is negative and the flag is 1. -/
theorem duration_hours_characterization_witness :
    duration_hours 3600 0 < 0 :=
  (duration_hours_characterization.2.2.1 3600 0).mpr (by decide)

/-! ## Claim C9 -/

/-- Claim C9 (code evaluation at the failing inputs): a frame violating
the first check (a duplicated user identifier) and a frame violating the
second check (a duplicated first-recording identifier with distinct user
identifiers) abort with the very same message text — the source's
line 167 repeats the line 165 text — so the surfaced condition does not
identify which check or column failed; on top of that the raise on both
lines names the undefined identifier `exception`, so what actually
surfaces is a `NameError`, not a named integrity error. -/
theorem validator_errors_indistinguishable :
    validate_df [⟨some "a", some 0, none, some "r1", some 0, none, [], 0, 0⟩,
                 ⟨some "a", some 0, none, some "r2", some 0, none, [], 0, 0⟩] =
      Except.error "PseudoUserID is not unique." ∧
    validate_df [⟨some "a", some 0, none, some "r1", some 0, none, [], 0, 0⟩,
                 ⟨some "b", some 0, none, some "r1", some 0, none, [], 0, 0⟩] =
      Except.error "PseudoUserID is not unique." := by
  exact ⟨rfl, rfl⟩

/-! ## Claim C10 -/

/-- Claim C10: a rule fires only on a row whose activity type matches and
whose metric value is present and strictly greater than the maximum; a
value exactly equal to the maximum leaves the row unchanged. -/
theorem rule_strict_threshold :
    (∀ (rule : OutlierRule) (r : FinalRow),
      get_metric r rule.metric = some rule.max_value → apply_rule rule r = r) ∧
    (∀ (rule : OutlierRule) (r : FinalRow), apply_rule rule r ≠ r →
      r.firstRecordingActivityType = some rule.activity_type ∧
      ∃ v, get_metric r rule.metric = some v ∧ rule.max_value < v) := by
  constructor
  · intro rule r h
    unfold apply_rule
    rw [if_neg]
    unfold rule_fires
    rw [h]
    simp [opt_gt]
  · intro rule r h
    unfold apply_rule at h
    by_cases hf : rule_fires rule r = true
    · unfold rule_fires at hf
      rw [Bool.and_eq_true] at hf
      refine ⟨by rw [← beq_iff_eq]; exact hf.1, ?_⟩
      cases hv : get_metric r rule.metric with
      | none => rw [hv] at hf; simp [opt_gt] at hf
      | some v =>
        rw [hv] at hf
        refine ⟨v, rfl, ?_⟩
        have := hf.2
        simp [opt_gt] at this
        exact this
    · rw [if_neg hf] at h
      exact absurd rfl h

/-- Claim C10 (witness): a Hiking row whose total time sits exactly at
the 64800 threshold is untouched by the total-time rule. -/
theorem rule_strict_threshold_witness :
    apply_rule ⟨"Hiking", "FirstRecordingTotalTime", 64800⟩
      ⟨some "a", some 0, none, some "r1", some 0, some "Hiking",
        [("FirstRecordingTotalTime", some 64800)], 0, 0⟩ =
      ⟨some "a", some 0, none, some "r1", some 0, some "Hiking",
        [("FirstRecordingTotalTime", some 64800)], 0, 0⟩ :=
  rule_strict_threshold.1 ⟨"Hiking", "FirstRecordingTotalTime", 64800⟩
    ⟨some "a", some 0, none, some "r1", some 0, some "Hiking",
      [("FirstRecordingTotalTime", some 64800)], 0, 0⟩ rfl

/-! ## Claim C7 -/

/-- Association-list lookup at a cons cell, with the head test as a
propositional if. -/
theorem lookup_cons_eq {β : Type} (m k1 : String) (v1 : β) (t : List (String × β)) :
    List.lookup m ((k1, v1) :: t) = if m = k1 then some v1 else List.lookup m t := by
  rw [List.lookup_cons]
  by_cases h : m = k1
  · have hb : (m == k1) = true := by simp [h]
    rw [hb, if_pos h]
  · have hb : (m == k1) = false := by simp [h]
    rw [hb, if_neg h]

/-- Nulling a column makes its lookup read as missing. -/
theorem lookup_set_same (m : String) :
    ∀ l : List (String × Option Int),
      List.lookup m (l.map (fun kv => if kv.1 = m then (kv.1, none) else kv)) =
        (List.lookup m l).map (fun _ => none) := by
  intro l
  induction l with
  | nil => rfl
  | cons kv t ih =>
    obtain ⟨k1, v1⟩ := kv
    by_cases hk : k1 = m
    · simp only [List.map_cons, if_pos hk]
      rw [lookup_cons_eq, lookup_cons_eq, if_pos hk.symm, if_pos hk.symm]
      rfl
    · simp only [List.map_cons, if_neg hk]
      rw [lookup_cons_eq, lookup_cons_eq,
        if_neg (fun h => hk (h.symm : k1 = m)), if_neg (fun h => hk (h.symm : k1 = m)), ih]

/-- Nulling one column leaves every other column's lookup unchanged. -/
theorem lookup_set_other (m m2 : String) (hne : m2 ≠ m) :
    ∀ l : List (String × Option Int),
      List.lookup m2 (l.map (fun kv => if kv.1 = m then (kv.1, none) else kv)) =
        List.lookup m2 l := by
  intro l
  induction l with
  | nil => rfl
  | cons kv t ih =>
    obtain ⟨k1, v1⟩ := kv
    by_cases hk : k1 = m
    · simp only [List.map_cons, if_pos hk]
      rw [lookup_cons_eq, lookup_cons_eq,
        if_neg (fun h => hne (h.trans hk)), if_neg (fun h => hne (h.trans hk)), ih]
    · simp only [List.map_cons, if_neg hk]
      rw [lookup_cons_eq, lookup_cons_eq]
      by_cases hk2 : m2 = k1
      · rw [if_pos hk2, if_pos hk2]
      · rw [if_neg hk2, if_neg hk2, ih]

/-- Reading the nulled metric gives a missing value. -/
theorem get_metric_set_same (r : FinalRow) (m : String) :
    get_metric (set_metric r m) m = none := by
  unfold get_metric set_metric
  rw [lookup_set_same m r.extra]
  cases List.lookup m r.extra <;> rfl

/-- Reading any other metric is unaffected by the nulling. -/
theorem get_metric_set_other (r : FinalRow) (m m2 : String) (hne : m2 ≠ m) :
    get_metric (set_metric r m) m2 = get_metric r m2 := by
  unfold get_metric set_metric
  rw [lookup_set_other m m2 hne r.extra]

/-- A rule application never changes the activity-type column. -/
theorem apply_rule_activity (rule : OutlierRule) (r : FinalRow) :
    (apply_rule rule r).firstRecordingActivityType = r.firstRecordingActivityType := by
  unfold apply_rule
  by_cases h : rule_fires rule r = true
  · rw [if_pos h]; rfl
  · rw [if_neg h]

/-- Once a rule has been applied, that rule no longer fires on the row. -/
theorem rule_fires_after_apply (rule : OutlierRule) (r : FinalRow) :
    rule_fires rule (apply_rule rule r) = false := by
  by_cases h : rule_fires rule r = true
  · unfold apply_rule
    rw [if_pos h]
    unfold rule_fires
    rw [get_metric_set_same]
    simp [opt_gt]
  · unfold apply_rule
    rw [if_neg h]
    exact Bool.not_eq_true _ ▸ Bool.of_not_eq_true h

/-- A rule that does not fire still does not fire after any other rule's
application: rules only null values, and a missing value exceeds no
threshold. -/
theorem rule_fires_mono (rule rule2 : OutlierRule) (r : FinalRow)
    (h : rule_fires rule r = false) :
    rule_fires rule (apply_rule rule2 r) = false := by
  by_cases h2 : rule_fires rule2 r = true
  · unfold apply_rule
    rw [if_pos h2]
    unfold rule_fires at h ⊢
    by_cases hm : rule.metric = rule2.metric
    · rw [hm, get_metric_set_same]
      simp [opt_gt]
    · rw [get_metric_set_other r rule2.metric rule.metric hm]
      rw [show (set_metric r rule2.metric).firstRecordingActivityType =
        r.firstRecordingActivityType from rfl]
      exact h
  · unfold apply_rule
    rw [if_neg h2]
    exact h

/-- Not firing is preserved along a whole pass of the rule list. -/
theorem rule_fires_mono_fold (rule : OutlierRule) :
    ∀ (rules : List OutlierRule) (r : FinalRow), rule_fires rule r = false →
      rule_fires rule (apply_rules_row rules r) = false := by
  intro rules
  induction rules with
  | nil => intro r h; exact h
  | cons ru rest ih =>
    intro r h
    unfold apply_rules_row at ih ⊢
    rw [List.foldl_cons]
    exact ih (apply_rule ru r) (rule_fires_mono rule ru r h)

/-- After one full pass no rule of the list fires any more. -/
theorem pass_makes_stable :
    ∀ (rules : List OutlierRule) (r : FinalRow) (rule : OutlierRule), rule ∈ rules →
      rule_fires rule (apply_rules_row rules r) = false := by
  intro rules
  induction rules with
  | nil => intro r rule h; cases h
  | cons ru rest ih =>
    intro r rule h
    have hstep : apply_rules_row (ru :: rest) r = apply_rules_row rest (apply_rule ru r) := by
      unfold apply_rules_row
      rw [List.foldl_cons]
    rcases List.mem_cons.mp h with h1 | h1
    · subst h1
      rw [hstep]
      exact rule_fires_mono_fold rule rest (apply_rule rule r)
        (rule_fires_after_apply rule r)
    · rw [hstep]
      exact ih (apply_rule ru r) rule h1

/-- A row on which no listed rule fires passes the rule loop unchanged. -/
theorem apply_rules_row_of_stable :
    ∀ (rules : List OutlierRule) (r : FinalRow),
      (∀ rule ∈ rules, rule_fires rule r = false) → apply_rules_row rules r = r := by
  intro rules
  induction rules with
  | nil => intro r _; rfl
  | cons ru rest ih =>
    intro r h
    unfold apply_rules_row
    rw [List.foldl_cons]
    have h1 : apply_rule ru r = r := by
      unfold apply_rule
      rw [if_neg]
      rw [h ru (List.mem_cons_self ru rest)]
      simp
    rw [h1]
    exact ih r (fun rule hm => h rule (List.mem_cons_of_mem ru hm))

/-- The frame-wide rule loop is one pass of the rule list over each row. -/
theorem suppress_fold_map (rules : List OutlierRule) :
    ∀ df : List FinalRow,
      rules.foldl (fun d rule => d.map (apply_rule rule)) df =
        df.map (apply_rules_row rules) := by
  induction rules with
  | nil =>
    intro df
    rw [List.foldl_nil]
    rw [show apply_rules_row [] = fun r => r from rfl, List.map_id']
  | cons ru rest ih =>
    intro df
    rw [List.foldl_cons, ih (df.map (apply_rule ru)), List.map_map]
    apply List.map_congr_left
    intro r _
    unfold apply_rules_row
    rw [Function.comp_apply, List.foldl_cons]

/-- Claim C7: applying the configured outlier rule list twice produces
the same frame as applying it once — values already nulled stay null,
and values that passed every applicable threshold still pass it. -/
theorem suppress_outliers_idempotent (df : List FinalRow) :
    suppress_outliers (suppress_outliers df) = suppress_outliers df := by
  unfold suppress_outliers
  rw [suppress_fold_map outlier_rules df,
    suppress_fold_map outlier_rules ((df.map (apply_rules_row outlier_rules))),
    List.map_map]
  apply List.map_congr_left
  intro r _
  rw [Function.comp_apply]
  exact apply_rules_row_of_stable outlier_rules (apply_rules_row outlier_rules r)
    (fun rule hm => pass_makes_stable outlier_rules r rule hm)

/-! ## Claim C8 -/

/-- Claim C8 (counterexample): a frame whose two rows both carry a null
`FirstRecordingID` — with no duplicate among the (nonexistent) non-null
identifiers — is nevertheless rejected: `Series.is_unique` counts missing
values as one shared value, so two nulls by themselves fail the second
check. -/
theorem null_ids_fail_uniqueness_check :
    validate_df [⟨some "a", some 0, none, none, some 0, none, [], 0, 0⟩,
                 ⟨some "b", some 0, none, none, some 0, none, [], 0, 0⟩] =
      Except.error "PseudoUserID is not unique." ∧
    ((([⟨some "a", some 0, none, none, some 0, none, [], 0, 0⟩,
        ⟨some "b", some 0, none, none, some 0, none, [], 0, 0⟩] : List FinalRow).map
          (fun r => r.firstRecordingID)).filter (fun x => x.isSome)).Nodup := by
  exact ⟨rfl, by decide⟩

/-- Claim C8 (amended): when the first check passes, the run aborts with
the second check's (miscopied) message exactly when the
`FirstRecordingID` column has duplicate values with all nulls counted as
one shared value — so two or more null identifiers do fail the check,
not only duplicates among the non-null ones. -/
theorem second_check_counts_nulls :
    ∀ df : List FinalRow,
      series_is_unique ((suppress_outliers df).map (fun r => r.pseudoUserID)) = true →
      (validate_df df = Except.error "PseudoUserID is not unique." ↔
        ¬ ((suppress_outliers df).map (fun r => r.firstRecordingID)).Nodup) := by
  intro df h1
  unfold validate_df
  simp only [h1, Bool.not_true, Bool.false_eq_true, if_false]
  by_cases h2 : series_is_unique
      ((suppress_outliers df).map (fun r => r.firstRecordingID)) = true
  · have hnd := (series_is_unique_iff _).mp h2
    rw [h2]
    simp only [Bool.not_true, Bool.false_eq_true, if_false]
    constructor
    · intro heq
      by_cases h3 : ((suppress_outliers df).map (fun r => r.pseudoUserID)).any
          (fun x => x == none) = true
      · rw [if_pos h3] at heq
        exact absurd (Except.error.inj heq) (by decide)
      · rw [if_neg h3] at heq
        cases heq
    · intro hc
      exact absurd hnd hc
  · have hb : series_is_unique
        ((suppress_outliers df).map (fun r => r.firstRecordingID)) = false :=
      Bool.eq_false_iff.mpr h2
    rw [hb]
    simp only [Bool.not_false, if_true]
    constructor
    · intro _
      intro hnd
      exact h2 ((series_is_unique_iff _).mpr hnd)
    · intro _
      trivial

/-- Claim C8 (witness): the amended characterization applied at a frame
with distinct user identifiers and two null first-recording identifiers,
which the second check rejects. -/
theorem second_check_counts_nulls_witness :
    validate_df [⟨some "c", some 0, none, none, some 0, none, [], 0, 0⟩,
                 ⟨some "d", some 0, none, none, some 0, none, [], 0, 0⟩] =
      Except.error "PseudoUserID is not unique." :=
  (second_check_counts_nulls
    [⟨some "c", some 0, none, none, some 0, none, [], 0, 0⟩,
     ⟨some "d", some 0, none, none, some 0, none, [], 0, 0⟩] (by decide)).mpr (by decide)

/-! ## Claim C4 -/

/-- A key outside an association list's domain looks up to nothing. -/
theorem lookup_eq_none_of_not_mem {β : Type} (k : String) :
    ∀ l : List (String × β), k ∉ l.map Prod.fst → List.lookup k l = none := by
  intro l
  induction l with
  | nil => intro _; rfl
  | cons kv t ih =>
    intro h
    obtain ⟨k1, v1⟩ := kv
    rw [List.map_cons] at h
    rw [lookup_cons_eq, if_neg (fun he => h (by rw [he]; exact List.mem_cons_self k1 _))]
    exact ih (fun hm => h (List.mem_cons_of_mem _ hm))

/-- Membership in the running union of summary keys. -/
theorem mem_keys_foldl (k : String) :
    ∀ (l : List CleanedRow) (acc : List String),
      (k ∈ l.foldl (fun a r =>
          a ++ (r.recording_Summary.map Prod.fst).filter (fun k2 => !a.contains k2)) acc ↔
        k ∈ acc ∨ ∃ r ∈ l, k ∈ r.recording_Summary.map Prod.fst) := by
  intro l
  induction l with
  | nil => intro acc; simp
  | cons r rs ih =>
    intro acc
    rw [List.foldl_cons, ih]
    simp only [List.mem_append, List.mem_filter, List.mem_cons]
    constructor
    · rintro (⟨h | ⟨h1, _⟩⟩ | ⟨r2, h2, h3⟩)
      · exact Or.inl h
      · exact Or.inr ⟨r, Or.inl rfl, h1⟩
      · exact Or.inr ⟨r2, Or.inr h2, h3⟩
    · rintro (h | ⟨r2, h2 | h2, h3⟩)
      · exact Or.inl (Or.inl h)
      · subst h2
        by_cases ha : k ∈ acc
        · exact Or.inl (Or.inl ha)
        · exact Or.inl (Or.inr ⟨h3, by simp [ha]⟩)
      · exact Or.inr ⟨r2, h2, h3⟩

/-- A key belongs to the frame-wide key set exactly when some row's
non-empty summary carries it. -/
theorem mem_all_keys (df : List CleanedRow) (k : String) :
    k ∈ all_keys df ↔
      ∃ r ∈ df, r.recording_Summary ≠ [] ∧ k ∈ r.recording_Summary.map Prod.fst := by
  unfold all_keys
  rw [mem_keys_foldl]
  simp only [List.mem_filter, decide_eq_true_eq]
  constructor
  · rintro (h | ⟨r, ⟨hr, hne⟩, hk⟩)
    · cases h
    · exact ⟨r, hr, hne, hk⟩
  · rintro ⟨r, hr, hne, hk⟩
    exact Or.inr ⟨r, ⟨hr, hne⟩, hk⟩

/-- Claim C4 (counterexample): a key outside the ten recognized ones is
not dropped — `DataFrame.rename` leaves an unlisted column label alone,
so the unrecognized key survives into the output as its own column with
its value. -/
theorem unknown_key_retained :
    (unpack_recording_summary [⟨some "u1", some 0, none, some "r1", some 5, some "Hiking",
      [("foo", 1)]⟩]).map (fun r => r.extra) = [[("foo", some 1)]] := rfl

/-- Claim C4 (amended): flattening maps each of the ten recognized keys
to its renamed column; a key absent from a row's mapping yields a null in
that row's column (provided some row carries the key — a key no row
carries produces no column at all); every key carried by some row's
summary becomes a column; and keys outside the ten recognized ones are
kept under their own names rather than dropped.  The original structured
column is removed by construction of the output row shape. -/
theorem summary_flatten_characterization :
    (rename_col "calories" = "FirstRecordingCaloriesBurned" ∧
     rename_col "duration" = "FirstRecordingDuration" ∧
     rename_col "timeTotal" = "FirstRecordingTotalTime" ∧
     rename_col "updatedAt" = "FirstRecordingUpdatedDateTime" ∧
     rename_col "timeMoving" = "FirstRecordingMovingTime" ∧
     rename_col "paceAverage" = "FirstRecordingAveragePace" ∧
     rename_col "speedAverage" = "FirstRecordingAverageSpeed" ∧
     rename_col "distanceTotal" = "FirstRecordingTotalDistance" ∧
     rename_col "elevationGain" = "FirstRecordingElevationGain" ∧
     rename_col "elevationLoss" = "FirstRecordingElevationLoss") ∧
    (∀ k, k ∉ summary_renames.map Prod.fst → rename_col k = k) ∧
    (∀ df r, r ∈ df → unpack_row (all_keys df) r ∈ unpack_recording_summary df) ∧
    (∀ (df : List CleanedRow) (r : CleanedRow) (k : String), r ∈ df → k ∈ all_keys df →
      (rename_col k, List.lookup k r.recording_Summary) ∈
        (unpack_row (all_keys df) r).extra) ∧
    (∀ (df : List CleanedRow) (r : CleanedRow) (k : String) (v : Int), r ∈ df →
      (k, v) ∈ r.recording_Summary → k ∈ all_keys df) := by
  refine ⟨by decide, ?_, ?_, ?_, ?_⟩
  · intro k hk
    unfold rename_col
    rw [lookup_eq_none_of_not_mem k summary_renames hk]
    rfl
  · intro df r hr
    exact List.mem_map_of_mem (unpack_row (all_keys df)) hr
  · intro df r k _ hk
    exact List.mem_map_of_mem (fun k2 => (rename_col k2, List.lookup k2 r.recording_Summary)) hk
  · intro df r k v hr hkv
    rw [mem_all_keys]
    exact ⟨r, hr, List.ne_nil_of_mem hkv, List.mem_map_of_mem Prod.fst hkv⟩

/-- Claim C4 (witness): the characterization applied at a one-row frame
whose summary holds `calories`, landing the value in the renamed
column. -/
theorem summary_flatten_characterization_witness :
    ("FirstRecordingCaloriesBurned", some 9) ∈
      (unpack_row
        (all_keys [⟨some "u", some 0, none, some "r", some 5, some "Hiking",
          [("calories", 9)]⟩])
        ⟨some "u", some 0, none, some "r", some 5, some "Hiking",
          [("calories", 9)]⟩).extra :=
  summary_flatten_characterization.2.2.2.1
    [⟨some "u", some 0, none, some "r", some 5, some "Hiking", [("calories", 9)]⟩]
    ⟨some "u", some 0, none, some "r", some 5, some "Hiking", [("calories", 9)]⟩
    "calories" (by decide) (by decide)

/-! ## Claim C2 -/

/-- No row counts before itself. -/
theorem counts_before_irrefl (p : Nat × MergedRow) : counts_before p p = false := by
  unfold counts_before
  cases h : p.2.date_Time with
  | none => simp
  | some a => simp

/-- Counting-before chains: the (value, position) lexicographic order is
transitive. -/
theorem counts_before_trans {p q r : Nat × MergedRow} (h1 : counts_before p q = true)
    (h2 : counts_before q r = true) : counts_before p r = true := by
  unfold counts_before at h1 h2 ⊢
  rw [Bool.and_eq_true] at h1 h2
  rw [Bool.and_eq_true]
  obtain ⟨h1u, h1t⟩ := h1
  obtain ⟨h2u, h2t⟩ := h2
  refine ⟨?_, ?_⟩
  · rw [beq_iff_eq] at h1u h2u ⊢
    exact h1u.trans h2u
  · cases hp : p.2.date_Time with
    | none => rw [hp] at h1t; simp at h1t
    | some a =>
      cases hq : q.2.date_Time with
      | none => rw [hq] at h1t; simp at h1t
      | some b =>
        cases hr : r.2.date_Time with
        | none => rw [hr] at h2t; simp at h2t
        | some c =>
          rw [hp, hq] at h1t
          rw [hq, hr] at h2t
          simp only [Bool.or_eq_true, Bool.and_eq_true, decide_eq_true_eq,
            beq_iff_eq] at h1t h2t ⊢
          omega

/-- Every nonempty list of enumerated rows has an element no other
element counts before. -/
theorem exists_min_counts_before :
    ∀ S : List (Nat × MergedRow), S ≠ [] →
      ∃ m ∈ S, ∀ q ∈ S, counts_before q m = false := by
  intro S
  induction S with
  | nil => intro h; exact absurd rfl h
  | cons p rest ih =>
    intro _
    by_cases hr : rest = []
    · subst hr
      refine ⟨p, List.mem_cons_self p [], ?_⟩
      intro q hq
      rcases List.mem_cons.mp hq with h | h
      · subst h; exact counts_before_irrefl q
      · cases h
    · obtain ⟨m, hm, hmin⟩ := ih hr
      by_cases hpm : counts_before p m = true
      · refine ⟨p, List.mem_cons_self p rest, ?_⟩
        intro q hq
        rcases List.mem_cons.mp hq with h | h
        · subst h; exact counts_before_irrefl q
        · by_cases hqp : counts_before q p = true
          · exact absurd (counts_before_trans hqp hpm) (by rw [hmin q h]; simp)
          · exact Bool.eq_false_iff.mpr hqp
      · refine ⟨m, List.mem_cons_of_mem p hm, ?_⟩
        intro q hq
        rcases List.mem_cons.mp hq with h | h
        · subst h; exact Bool.eq_false_iff.mpr hpm
        · exact hmin q h

/-- Enumerated rows are pairwise distinct (their indices already are). -/
theorem enum_nodup (l : List MergedRow) : l.enum.Nodup := by
  have h1 : (l.enum.map Prod.fst).Nodup := by
    rw [List.enum_map_fst]
    exact List.nodup_range _
  exact h1.of_map

/-- One index carries one row. -/
theorem enum_index_inj {l : List MergedRow} {i : Nat} {a b : MergedRow}
    (ha : (i, a) ∈ l.enum) (hb : (i, b) ∈ l.enum) : a = b := by
  rw [List.mem_enum_iff_getElem?] at ha hb
  rw [ha] at hb
  exact Option.some.inj hb

/-- Two distinct enumerated rows of one user, both with a present
timestamp, are comparable: one counts before the other. -/
theorem counts_before_total {l : List MergedRow} {u : String} {p q : Nat × MergedRow}
    (hp : p ∈ l.enum) (hq : q ∈ l.enum)
    (hpu : p.2.pseudo_User_ID = some u) (hqu : q.2.pseudo_User_ID = some u)
    (hpt : p.2.date_Time.isSome = true) (hqt : q.2.date_Time.isSome = true)
    (hne : p ≠ q) : counts_before p q = true ∨ counts_before q p = true := by
  obtain ⟨a, ha⟩ := Option.isSome_iff_exists.mp hpt
  obtain ⟨b, hb⟩ := Option.isSome_iff_exists.mp hqt
  have hij : p.1 ≠ q.1 := by
    intro hcontra
    apply hne
    rw [Prod.ext_iff]
    refine ⟨hcontra, ?_⟩
    have hp2 : (p.1, p.2) ∈ l.enum := hp
    have hq2 : (q.1, q.2) ∈ l.enum := hq
    rw [hcontra] at hp2
    exact enum_index_inj hp2 hq2
  unfold counts_before
  rw [hpu, hqu, ha, hb]
  simp only [beq_self_eq_true, Bool.true_and, Bool.or_eq_true, Bool.and_eq_true,
    decide_eq_true_eq, beq_iff_eq]
  omega

/-- A row ranks first exactly when its group key and value are present
and no row of the frame counts before it. -/
theorem row_number_one_iff {df : List MergedRow} {q : Nat × MergedRow} :
    (row_number df.enum q == some 1) = true ↔
      (∃ u, q.2.pseudo_User_ID = some u) ∧ (∃ t, q.2.date_Time = some t) ∧
        ∀ p ∈ df.enum, counts_before p q = false := by
  unfold row_number
  cases hu : q.2.pseudo_User_ID with
  | none => simp
  | some u =>
    cases ht : q.2.date_Time with
    | none => simp
    | some t =>
      simp only [beq_iff_eq, Option.some.injEq]
      constructor
      · intro h
        refine ⟨⟨u, rfl⟩, ⟨t, rfl⟩, ?_⟩
        have hlen : (df.enum.filter (fun p => counts_before p q)).length = 0 := by omega
        rw [List.length_eq_zero] at hlen
        intro p hp
        by_cases hc : counts_before p q = true
        · have hmem : p ∈ df.enum.filter (fun p => counts_before p q) :=
            List.mem_filter.mpr ⟨hp, hc⟩
          rw [hlen] at hmem
          cases hmem
        · exact Bool.eq_false_iff.mpr hc
      · rintro ⟨_, _, hall⟩
        have hnil : df.enum.filter (fun p => counts_before p q) = [] :=
          List.filter_eq_nil_iff.mpr (fun p hp => by rw [hall p hp]; simp)
        rw [hnil]
        rfl

/-- A filter whose predicate characterizes one element of a
duplicate-free list returns exactly that element. -/
theorem filter_eq_singleton_of_char {α : Type} :
    ∀ (l : List α) (pr : α → Bool) (a : α), l.Nodup → a ∈ l →
      (∀ x ∈ l, (pr x = true ↔ x = a)) → l.filter pr = [a] := by
  intro l
  induction l with
  | nil => intro pr a _ ha; cases ha
  | cons b t ih =>
    intro pr a hnd ha hchar
    rw [List.nodup_cons] at hnd
    rcases List.mem_cons.mp ha with h | h
    · subst h
      rw [List.filter_cons_of_pos ((hchar a (List.mem_cons_self a t)).mpr rfl)]
      have hnil : t.filter pr = [] := by
        apply List.filter_eq_nil_iff.mpr
        intro x hx hpx
        have hxa := (hchar x (List.mem_cons_of_mem a hx)).mp hpx
        subst hxa
        exact hnd.1 hx
      rw [hnil]
    · have hba : b ≠ a := by
        intro he
        subst he
        exact hnd.1 h
      rw [List.filter_cons_of_neg (by
        intro hpb
        exact hba ((hchar b (List.mem_cons_self b t)).mp hpb))]
      exact ih pr a hnd.2 h (fun x hx => hchar x (List.mem_cons_of_mem b hx))

/-- Claim C2: for a user with at least one timestamped row in the merged
frame, first-record selection keeps exactly one row for that user — the
row whose recording timestamp is minimal, with ties broken by the
smaller original row position (first-seen order) — regardless of where
the user's rows sit in the input. -/
theorem first_record_selects_min (df : List MergedRow) (u : String)
    (h : ∃ q ∈ df.enum, q.2.pseudo_User_ID = some u ∧ q.2.date_Time.isSome = true) :
    ∃ i r t, (i, r) ∈ df.enum ∧ r.pseudo_User_ID = some u ∧ r.date_Time = some t ∧
      (clean_select df).filter (fun x => x.pseudo_User_ID == some u) = [r] ∧
      (∀ j s t2, (j, s) ∈ df.enum → s.pseudo_User_ID = some u → s.date_Time = some t2 →
        t < t2 ∨ (t = t2 ∧ i ≤ j)) := by
  obtain ⟨q0, hq0, hq0u, hq0t⟩ := h
  have hq0S : q0 ∈ df.enum.filter
      (fun q => q.2.pseudo_User_ID == some u && q.2.date_Time.isSome) := by
    rw [List.mem_filter]
    refine ⟨hq0, ?_⟩
    rw [Bool.and_eq_true, beq_iff_eq]
    exact ⟨hq0u, hq0t⟩
  obtain ⟨m, hmS, hmin⟩ := exists_min_counts_before _ (List.ne_nil_of_mem hq0S)
  have hmem := List.mem_filter.mp hmS
  obtain ⟨hm_enum, hmprop⟩ := hmem
  rw [Bool.and_eq_true, beq_iff_eq] at hmprop
  obtain ⟨hmu, hmt⟩ := hmprop
  obtain ⟨t, ht⟩ := Option.isSome_iff_exists.mp hmt
  have hcb_to_S : ∀ p ∈ df.enum, counts_before p m = true →
      p ∈ df.enum.filter (fun q => q.2.pseudo_User_ID == some u && q.2.date_Time.isSome) := by
    intro p hp hc
    unfold counts_before at hc
    rw [Bool.and_eq_true] at hc
    rw [List.mem_filter]
    refine ⟨hp, ?_⟩
    rw [Bool.and_eq_true]
    constructor
    · rw [beq_iff_eq] at hc ⊢
      rw [hc.1]
      exact hmu
    · cases hpt : p.2.date_Time with
      | none =>
        rw [hpt] at hc
        obtain ⟨_, hc2⟩ := hc
        simp at hc2
      | some a => rfl
  have hnone : ∀ p ∈ df.enum, counts_before p m = false := by
    intro p hp
    by_cases hc : counts_before p m = true
    · have := hmin p (hcb_to_S p hp hc)
      rw [hc] at this
      cases this
    · exact Bool.eq_false_iff.mpr hc
  have hkeep : (row_number df.enum m == some 1) = true := by
    rw [row_number_one_iff]
    exact ⟨⟨u, hmu⟩, ⟨t, ht⟩, hnone⟩
  have hchar : ∀ p ∈ df.enum,
      ((p.2.pseudo_User_ID == some u && (row_number df.enum p == some 1)) = true ↔ p = m) := by
    intro p hp
    constructor
    · intro hpp
      rw [Bool.and_eq_true] at hpp
      obtain ⟨hpu, hk⟩ := hpp
      rw [beq_iff_eq] at hpu
      rw [row_number_one_iff] at hk
      obtain ⟨_, ⟨t2, ht2⟩, hall⟩ := hk
      by_contra hne
      rcases counts_before_total hp hm_enum hpu hmu
          (by rw [ht2]; rfl) hmt hne with hc | hc
      · rw [hnone p hp] at hc
        cases hc
      · rw [hall m hm_enum] at hc
        cases hc
    · intro he
      subst he
      rw [Bool.and_eq_true]
      refine ⟨?_, hkeep⟩
      rw [hmu]
      exact beq_self_eq_true (some u)
  refine ⟨m.1, m.2, t, hm_enum, hmu, ht, ?_, ?_⟩
  · unfold clean_select
    rw [List.filter_map, List.filter_filter]
    have hsing : df.enum.filter
        (fun a => ((fun x => x.pseudo_User_ID == some u) ∘ (fun q => q.2)) a
          && (row_number df.enum a == some 1)) = [m] := by
      apply filter_eq_singleton_of_char df.enum _ m (enum_nodup df) hm_enum
      intro x hx
      exact hchar x hx
    rw [hsing]
    rfl
  · intro j s t2 hjs hsu hst2
    have hf := hnone (j, s) hjs
    unfold counts_before at hf
    rw [hsu, hmu, hst2, ht] at hf
    simp only [beq_self_eq_true, Bool.true_and, Bool.or_eq_false_iff, Bool.and_eq_false_iff,
      decide_eq_false_iff_not, beq_eq_false_iff_ne, ne_eq] at hf
    omega

/-- Claim C2 (witness): the selection applied at a user whose three
recordings arrive out of order (times 20, 10, 30): the kept row is
characterized as the minimal-time one, here the middle input row with
time 10. -/
theorem first_record_selects_min_witness :
    ∃ i r t,
      (i, r) ∈ ([⟨some "u1", some 0, none, some "r2", some 20, some "Hiking", PyVal.vNull⟩,
        ⟨some "u1", some 0, none, some "r1", some 10, some "Hiking", PyVal.vNull⟩,
        ⟨some "u1", some 0, none, some "r3", some 30, some "Hiking", PyVal.vNull⟩] :
          List MergedRow).enum ∧
      r.pseudo_User_ID = some "u1" ∧ r.date_Time = some t ∧
      (clean_select [⟨some "u1", some 0, none, some "r2", some 20, some "Hiking", PyVal.vNull⟩,
        ⟨some "u1", some 0, none, some "r1", some 10, some "Hiking", PyVal.vNull⟩,
        ⟨some "u1", some 0, none, some "r3", some 30, some "Hiking", PyVal.vNull⟩]).filter
          (fun x => x.pseudo_User_ID == some "u1") = [r] ∧
      (∀ j s t2,
        (j, s) ∈ ([⟨some "u1", some 0, none, some "r2", some 20, some "Hiking", PyVal.vNull⟩,
          ⟨some "u1", some 0, none, some "r1", some 10, some "Hiking", PyVal.vNull⟩,
          ⟨some "u1", some 0, none, some "r3", some 30, some "Hiking", PyVal.vNull⟩] :
            List MergedRow).enum →
        s.pseudo_User_ID = some "u1" → s.date_Time = some t2 →
        t < t2 ∨ (t = t2 ∧ i ≤ j)) :=
  first_record_selects_min
    [⟨some "u1", some 0, none, some "r2", some 20, some "Hiking", PyVal.vNull⟩,
     ⟨some "u1", some 0, none, some "r1", some 10, some "Hiking", PyVal.vNull⟩,
     ⟨some "u1", some 0, none, some "r3", some 30, some "Hiking", PyVal.vNull⟩]
    "u1" (by decide)

/-- Claim C5 (witness): the characterization applied at a missing
first-recording timestamp, where the flag is 0. -/
theorem invalid_flag_iff_witness : invalid_flag (some 3) none = 0 :=
  invalid_flag_iff.2.1 (some 3) none (Or.inr rfl)
